import Mathlib

/-!
Shallow embedding of the load-and-assertion harness of the
7D-Solutions platform (pressure-test.py, test-hash-concurrency-extreme.py,
load-login.py) together with theorems about its behaviour.

Python machine floats are modelled as exact rationals, Python integers as
Int, Python str values as Lean String values (with helper functions that
mirror the Python str methods used by the code), and code that can raise
as Except.
-/

/-- Left brace character, written via its code point. -/
def lbrace : Char := Char.ofNat 123

/-- Numeric value of a decimal digit character. -/
def digitVal (c : Char) : ℕ := c.toNat - 48

/-- Value of a list of decimal digit characters read left to right. -/
def digitsToNat (cs : List Char) : ℕ := cs.foldl (fun a c => a * 10 + digitVal c) 0

/-- Python str.strip on a character list: drop whitespace on both ends. -/
def pyTrim (cs : List Char) : List Char :=
  ((cs.dropWhile Char.isWhitespace).reverse.dropWhile Char.isWhitespace).reverse

/-- Exponent part of a Python float literal: optional sign then digits. -/
def pyExpPart (cs : List Char) : Option ℤ :=
  match cs with
  | '+' :: r => if r.isEmpty then none else if r.all Char.isDigit then some (digitsToNat r : ℤ) else none
  | '-' :: r => if r.isEmpty then none else if r.all Char.isDigit then some (-(digitsToNat r : ℤ)) else none
  | r => if r.isEmpty then none else if r.all Char.isDigit then some (digitsToNat r : ℤ) else none

/-- Unsigned part of a Python float literal: digits, optional fraction,
optional exponent.  The inf and nan spellings of the Python float
constructor are outside this model; the harness never meets them. -/
def pyFloatMag (cs : List Char) : Option ℚ :=
  let ip := cs.takeWhile Char.isDigit
  let r1 := cs.dropWhile Char.isDigit
  match r1 with
  | [] => if ip.isEmpty then none else some (digitsToNat ip : ℚ)
  | '.' :: r2 =>
    let fp := r2.takeWhile Char.isDigit
    let r3 := r2.dropWhile Char.isDigit
    if ip.isEmpty && fp.isEmpty then none
    else
      let base : ℚ := (digitsToNat ip : ℚ) + (digitsToNat fp : ℚ) / ((10 : ℚ) ^ fp.length)
      match r3 with
      | [] => some base
      | c :: r4 =>
        if c = 'e' ∨ c = 'E' then (pyExpPart r4).map (fun ex => base * (10 : ℚ) ^ ex) else none
  | c :: r2 =>
    if c = 'e' ∨ c = 'E' then
      if ip.isEmpty then none
      else (pyExpPart r2).map (fun ex => (digitsToNat ip : ℚ) * (10 : ℚ) ^ ex)
    else none

/-- Python float(str): strip whitespace, optional sign, magnitude.
Returns none where the Python call raises ValueError. -/
def pyFloat (s : String) : Option ℚ :=
  match pyTrim s.toList with
  | [] => none
  | '+' :: rest => pyFloatMag rest
  | '-' :: rest => (pyFloatMag rest).map Neg.neg
  | cs => pyFloatMag cs

/-- Boolean test that the first list is an initial segment of the second. -/
def leadsList : List Char → List Char → Bool
  | [], _ => true
  | _ :: _, [] => false
  | a :: as, b :: bs => a = b && leadsList as bs

/-- Python substring membership: the needle occurs somewhere in the hay. -/
def occursIn : List Char → List Char → Bool
  | n, [] => n.isEmpty
  | n, h :: t => leadsList n (h :: t) || occursIn n t

/-- Python str.startswith. -/
def pyStartsWith (s p : String) : Bool := leadsList p.toList s.toList

/-- Accumulator loop behind wsplit: acc holds the reversed characters of
the token being read. -/
def wsplitAux : List Char → List Char → List (List Char)
  | [], acc => if acc = [] then [] else [acc.reverse]
  | c :: cs, acc =>
    if c.isWhitespace then
      if acc = [] then wsplitAux cs [] else acc.reverse :: wsplitAux cs []
    else wsplitAux cs (c :: acc)

/-- Python str.split() with no argument: maximal runs of non-whitespace. -/
def wsplit (cs : List Char) : List (List Char) := wsplitAux cs []

/-- Python round to the nearest integer, ties to the even integer. -/
def pyRound (q : ℚ) : ℤ :=
  if q - ⌊q⌋ < 1 / 2 then ⌊q⌋
  else if 1 / 2 < q - ⌊q⌋ then ⌊q⌋ + 1
  else if ⌊q⌋ % 2 = 0 then ⌊q⌋ else ⌊q⌋ + 1

/-- Python list indexing: negative indices count from the end, out of
range gives none (IndexError). -/
def pyIndex (l : List ℚ) (k : ℤ) : Option ℚ :=
  if 0 ≤ k then l.get? k.toNat
  else
    let j := (l.length : ℤ) + k
    if 0 ≤ j then l.get? j.toNat else none

/-- pct from load-login.py: sort ascending, take the element at index
int(round((p / 100) * (len(lst) - 1))). -/
def pct (lst : List ℚ) (p : ℚ) : Option ℚ :=
  let s := lst.insertionSort (· ≤ ·)
  let k := pyRound (p / 100 * ((lst.length : ℚ) - 1))
  pyIndex s k

/-- Python substring membership test, needle in hay. -/
def pyIn (needle hay : String) : Bool := occursIn needle.toList hay.toList

/-- Python repr of a Bool, as produced by an f-string. -/
def pyBoolStr (b : Bool) : String := if b then "True" else "False"

/-- Value stored under one key of the metrics dict built by
LoadTester.get_metrics: unlabeled metrics store a bare float, labeled
metrics store a list of floats. -/
inductive MValue where
  | scalar (v : ℚ)
  | lst (vs : List ℚ)
deriving DecidableEq, Repr

/-- Python dict from metric name to value, insertion ordered. -/
abbrev Metrics := List (String × MValue)

/-- Dict lookup. -/
def metricsFind : Metrics → String → Option MValue
  | [], _ => none
  | (k', v') :: rest, k => if k' = k then some v' else metricsFind rest k

/-- Dict store: replace in place when the key exists, append otherwise. -/
def metricsSet : Metrics → String → MValue → Metrics
  | [], k, v => [(k, v)]
  | (k', v') :: rest, k, v =>
    if k' = k then (k, v) :: rest else (k', v') :: metricsSet rest k v

/-- Processing of one line of exposition text by the parsing loop of
LoadTester.get_metrics.  Error values model the exceptions the Python
loop can raise (ValueError from float, AttributeError from calling
append on a float). -/
def parseMetricsLine (m : Metrics) (line : String) : Except String Metrics :=
  if pyStartsWith line "auth_" then
    if line.toList.contains lbrace then
      let name := String.mk (line.toList.takeWhile (fun c => c ≠ lbrace))
      match (wsplit line.toList).getLast? with
      | none => Except.error "IndexError"
      | some tok =>
        match pyFloat (String.mk tok) with
        | none => Except.error "ValueError"
        | some v =>
          let m1 := if (metricsFind m name).isSome then m else metricsSet m name (MValue.lst [])
          match metricsFind m1 name with
          | some (MValue.lst vs) => Except.ok (metricsSet m1 name (MValue.lst (vs ++ [v])))
          | some (MValue.scalar _) => Except.error "AttributeError"
          | none => Except.error "KeyError"
    else if pyStartsWith line "#" then Except.ok m
    else
      match wsplit line.toList with
      | [ncs, vcs] =>
        match pyFloat (String.mk vcs) with
        | none => Except.error "ValueError"
        | some v => Except.ok (metricsSet m (String.mk ncs) (MValue.scalar v))
      | _ => Except.ok m
  else Except.ok m

/-- Python str.split(sep) with a one-character separator: pieces between
occurrences of the separator, empty pieces kept. -/
def splitOnChar (sep : Char) : List Char → List (List Char)
  | [] => [[]]
  | c :: rest =>
    if c = sep then [] :: splitOnChar sep rest
    else
      match splitOnChar sep rest with
      | [] => [[c]]
      | t :: ts => (c :: t) :: ts

/-- Folding of the parsing loop over the list of lines. -/
def parseMetricsLines : Metrics → List String → Except String Metrics
  | m, [] => Except.ok m
  | m, line :: rest =>
    match parseMetricsLine m line with
    | Except.error e => Except.error e
    | Except.ok m' => parseMetricsLines m' rest

/-- LoadTester.get_metrics applied to the fetched exposition text:
split on newline and run the parsing loop starting from the empty dict. -/
def getMetricsFromText (text : String) : Except String Metrics :=
  parseMetricsLines [] ((splitOnChar '\n' text.toList).map String.mk)

/-- TestResult dataclass of pressure-test.py. -/
structure TestResult where
  name : String
  success : Bool
  duration : ℚ
  details : String
  metrics : Option Metrics := none
deriving DecidableEq, Repr

/-- Parsed JSON value, the result of resp.json(). -/
inductive JsonV where
  | obj (fields : List (String × JsonV))
  | arr (elems : List JsonV)
  | str (s : String)
  | num (q : ℚ)
  | bool (b : Bool)
  | null

/-- asyncio.gather over a list of already-created tasks: exactly one
result per task, in submission order.  With return_exceptions=True an
exception is materialized as an ordinary value of the result type, so
the outcome function is total. -/
def gatherE {α β : Type} (f : α → β) (tasks : List α) : List β := tasks.map f

/-- Success test applied to one JWKS response by
LoadTester.test_jwks_endpoint_load: isinstance(r, dict) and the literal
string keys being one of the top level dict keys. -/
def jwksOk : Except String JsonV → Bool
  | Except.ok (JsonV.obj fs) => fs.any (fun kv => kv.1 == "keys")
  | _ => false

/-- Fan-out of the JWKS scenario: one fetch_jwks task per index below
concurrency, joined by gather. -/
def jwksFanout (fetch : ℕ → Except String JsonV) (concurrency : ℕ) :
    List (Except String JsonV) :=
  gatherE fetch (List.range concurrency)

/-- LoadTester.test_jwks_endpoint_load: count the responses that are
dicts holding a keys field and pass when that count equals the request
count. -/
def jwksScenario (fetch : ℕ → Except String JsonV) (concurrency : ℕ)
    (elapsed : ℚ) : TestResult :=
  let results := jwksFanout fetch concurrency
  let successes := (results.filter jwksOk).length
  { name := "JWKS Load Test"
    success := successes == concurrency
    duration := elapsed
    details := toString successes ++ "/" ++ toString concurrency ++ " requests succeeded" }

/-- Fan-out of the registration scenarios: one register_user task per
index below n, joined by gather; register_user catches every exception
itself and returns a status-0 pair, so each task yields a plain pair. -/
def registrationFanout (run : ℕ → ℕ × JsonV) (n : ℕ) : List (ℕ × JsonV) :=
  gatherE run (List.range n)

/-- Inputs reaching LoadTester.test_replay_detection_with_ip from the
outside world: the registration status, the refresh token of the login
response, the statuses of the two refresh calls, the content of
/tmp/auth-rs-v1_4.log when the file exists, and the measured duration. -/
structure ReplayEnv where
  regStatus : ℕ
  refreshToken : Option String
  firstRefreshStatus : ℕ
  replayStatus : ℕ
  logFile : Option String
  elapsed : ℚ

/-- LoadTester.test_replay_detection_with_ip: early return without a
TestResult when registration fails or no refresh token arrives, an
uncaught exception when the log file is missing, otherwise exactly one
TestResult whose verdict also consults the log content. -/
def testReplayDetection (env : ReplayEnv) : Except String (List TestResult) :=
  if env.regStatus ≠ 200 then Except.ok []
  else
    match env.refreshToken with
    | none => Except.ok []
    | some tok =>
      if tok = "" then Except.ok []
      else
        match env.logFile with
        | none => Except.error "FileNotFoundError"
        | some logs =>
          let hasReplayLog := pyIn "refresh_replay_detected" logs
          let hasClientIp := pyIn "198.51.100.99" logs || pyIn "client_ip" logs
          let hasUserAgent := pyIn "EvilClient" logs || pyIn "user_agent" logs
          Except.ok [{
            name := "Replay Detection with Client IP"
            success := (env.replayStatus == 401) && hasReplayLog && hasClientIp
            duration := env.elapsed
            details := "Replay " ++ (if env.replayStatus == 401 then "blocked" else "NOT blocked")
              ++ ", IP logged: " ++ pyBoolStr hasClientIp
              ++ ", UA logged: " ++ pyBoolStr hasUserAgent }]

/-- Counters the metrics validation scenario requires. -/
def requiredMetricNames : List String :=
  ["auth_register_total", "auth_login_total", "auth_refresh_total",
   "auth_http_request_duration_seconds"]

/-- LoadTester.validate_metrics: a failed metrics fetch raises out of
the scenario; otherwise one TestResult passing when at least three of
the four required metric names are present. -/
def validateMetrics (fetch : Except String Metrics) : Except String (List TestResult) :=
  match fetch with
  | Except.error e => Except.error e
  | Except.ok metrics =>
    let found := requiredMetricNames.filterMap
      (fun r => (metricsFind metrics r).map (fun v => (r, v)))
    Except.ok [{
      name := "Metrics Validation"
      success := decide (3 ≤ found.length)
      duration := 0
      details := toString found.length ++ "/"
        ++ toString requiredMetricNames.length ++ " required metrics found"
      metrics := some found }]

/-- Count of passing results, as computed by LoadTester.run_all_tests. -/
def testsPassedCount (results : List TestResult) : ℕ := results.countP (·.success)

/-- Verdict of LoadTester.run_all_tests: the summary print divides by
len(results) first, so an empty result list raises ZeroDivisionError;
otherwise the method returns passed == total_tests. -/
def runAllTestsVerdict (results : List TestResult) : Except String Bool :=
  if results.length = 0 then Except.error "ZeroDivisionError"
  else Except.ok (testsPassedCount results == results.length)

/-- main of pressure-test.py: sys.exit(0 if success else 1). -/
def mainExitCode (results : List TestResult) : Except String ℕ :=
  (runAllTestsVerdict results).map (fun b => if b then 0 else 1)

/-- user_data dict built by the register_user helpers. -/
structure UserData where
  tenant_id : String
  user_id : String
  email : String
  password : String

/-- Spoofed client address header of the registration helpers:
X-Forwarded-For set to 192.0.2. followed by hash(email) % 255, where
pyHash is the string hash of the running Python process. -/
def xffHeader (pyHash : String → ℤ) (u : UserData) : String :=
  "192.0.2." ++ toString (pyHash u.email % 255)

/-- Counters describing one instant of a dispatch batch: tasks not yet
started, requests currently in flight, requests resolved. -/
structure DispatchState where
  queued : ℕ
  inflight : ℕ
  finished : ℕ
deriving DecidableEq, Repr

/-- Transitions of the dispatcher of test-hash-concurrency-extreme.py:
register_user enters async-with on the semaphore before posting, so a
task starts its network call only while fewer than limit are in flight,
and the semaphore is released on every exit path of the call. -/
inductive SemStep (limit : ℕ) : DispatchState → DispatchState → Prop where
  | acquire (s : DispatchState) (hq : 0 < s.queued) (hc : s.inflight < limit) :
      SemStep limit s ⟨s.queued - 1, s.inflight + 1, s.finished⟩
  | release (s : DispatchState) (hf : 0 < s.inflight) :
      SemStep limit s ⟨s.queued, s.inflight - 1, s.finished + 1⟩

/-- States the semaphore-guarded dispatch of n tasks can reach. -/
inductive SemReachable (limit n : ℕ) : DispatchState → Prop where
  | init : SemReachable limit n ⟨n, 0, 0⟩
  | step {s t : DispatchState} :
      SemReachable limit n s → SemStep limit s t → SemReachable limit n t

/-- Transitions of the fan-out in LoadTester.test_hash_concurrency_limit
of pressure-test.py: the tasks are handed to gather with no client-side
permit, so any queued task may start its call regardless of how many are
already in flight. -/
inductive FreeStep : DispatchState → DispatchState → Prop where
  | start (s : DispatchState) (hq : 0 < s.queued) :
      FreeStep s ⟨s.queued - 1, s.inflight + 1, s.finished⟩
  | release (s : DispatchState) (hf : 0 < s.inflight) :
      FreeStep s ⟨s.queued, s.inflight - 1, s.finished + 1⟩

/-- States the unguarded fan-out of n tasks can reach. -/
inductive FreeReachable (n : ℕ) : DispatchState → Prop where
  | init : FreeReachable n ⟨n, 0, 0⟩
  | step {s t : DispatchState} :
      FreeReachable n s → FreeStep s t → FreeReachable n t

theorem pyRound_intCast (m : ℤ) : pyRound (m : ℚ) = m := by
  unfold pyRound
  norm_num

theorem pyRound_nonneg {q : ℚ} (h : 0 ≤ q) : 0 ≤ pyRound q := by
  unfold pyRound
  have hf : (0:ℤ) ≤ ⌊q⌋ := Int.floor_nonneg.mpr h
  split_ifs <;> omega

theorem pyRound_le {q : ℚ} {m : ℤ} (h : q ≤ (m:ℚ)) : pyRound q ≤ m := by
  have hf : ⌊q⌋ ≤ m := by
    have h2 := Int.floor_le_floor h
    simpa using h2
  have hfq := Int.floor_le q
  unfold pyRound
  split_ifs with h1 h2 h3
  · exact hf
  · have hlt : (⌊q⌋:ℚ) < q := by linarith
    have : ⌊q⌋ < m := by exact_mod_cast lt_of_lt_of_le hlt h
    omega
  · exact hf
  · have hlt : (⌊q⌋:ℚ) < q := by linarith
    have : ⌊q⌋ < m := by exact_mod_cast lt_of_lt_of_le hlt h
    omega

theorem leadsList_eq_take (as bs : List Char) :
    leadsList as bs = true ↔ bs.take as.length = as := by
  induction as generalizing bs with
  | nil => simp [leadsList]
  | cons a as ih =>
    cases bs with
    | nil => simp [leadsList]
    | cons b bs =>
      simp only [leadsList, Bool.and_eq_true, decide_eq_true_eq, List.length_cons,
        List.take_succ_cons, List.cons.injEq, ih]
      constructor
      · rintro ⟨h1, h2⟩; exact ⟨h1.symm, h2⟩
      · rintro ⟨h1, h2⟩; exact ⟨h1.symm, h2⟩

theorem auth_shape {cs : List Char} (h : leadsList "auth_".toList cs = true) :
    cs = 'a' :: 'u' :: 't' :: 'h' :: '_' :: cs.drop 5 := by
  have h2 : cs.take 5 = ['a', 'u', 't', 'h', '_'] := (leadsList_eq_take _ _).mp h
  conv_lhs => rw [← List.take_append_drop 5 cs]
  rw [h2]
  rfl

theorem takeWhile_auth {cs : List Char} (h : leadsList "auth_".toList cs = true) :
    leadsList "auth_".toList (cs.takeWhile (fun c => c ≠ lbrace)) = true := by
  conv_lhs => rw [auth_shape h]
  simp only [List.takeWhile_cons]
  norm_num [lbrace, leadsList]

theorem leadsList_take_len (as : List Char) : leadsList as as = true := by
  rw [leadsList_eq_take]
  exact List.take_length as

theorem leadsList_of_append {as bs cs : List Char}
    (h : leadsList (as ++ bs) cs = true) : leadsList as cs = true := by
  rw [leadsList_eq_take] at h ⊢
  have : cs.take as.length = (cs.take (as ++ bs).length).take as.length := by
    rw [List.take_take]
    congr 1
    simp only [List.length_append]
    omega
  rw [this, h, List.take_left]

theorem wsplitAux_first {rest acc : List Char} (hacc : acc ≠ []) :
    ∃ n ns, wsplitAux rest acc = n :: ns ∧ leadsList acc.reverse n = true := by
  induction rest generalizing acc with
  | nil =>
    refine ⟨acc.reverse, [], ?_, leadsList_take_len _⟩
    simp [wsplitAux, hacc]
  | cons c cs ih =>
    by_cases hw : c.isWhitespace
    · refine ⟨acc.reverse, wsplitAux cs [], ?_, leadsList_take_len _⟩
      simp [wsplitAux, hw, hacc]
    · obtain ⟨n, ns, heq, hlead⟩ := ih (show (c :: acc) ≠ [] from by simp)
      refine ⟨n, ns, ?_, ?_⟩
      · simpa [wsplitAux, hw] using heq
      · exact leadsList_of_append (by rwa [List.reverse_cons] at hlead)

theorem wsplit_head_auth {cs : List Char} (h : leadsList "auth_".toList cs = true) :
    ∃ n ns, wsplit cs = n :: ns ∧ leadsList "auth_".toList n = true := by
  obtain ⟨n, ns, heq, hlead⟩ := @wsplitAux_first (cs.drop 5) ['_', 'h', 't', 'u', 'a'] (by simp)
  refine ⟨n, ns, ?_, ?_⟩
  · show wsplitAux cs [] = n :: ns
    rw [auth_shape h]
    exact heq
  · have hrev : (['_', 'h', 't', 'u', 'a'] : List Char).reverse = "auth_".toList := rfl
    rwa [hrev] at hlead

theorem mem_metricsSet {m : Metrics} {k : String} {v : MValue} {p : String × MValue}
    (h : p ∈ metricsSet m k v) : p.1 = k ∨ p ∈ m := by
  induction m with
  | nil =>
    simp [metricsSet] at h
    left
    rw [h]
  | cons q rest ih =>
    obtain ⟨k', v'⟩ := q
    by_cases hk : k' = k
    · simp [metricsSet, hk] at h
      rcases h with h | h
      · left; rw [h]
      · right; exact List.mem_cons_of_mem _ h
    · simp [metricsSet, hk] at h
      rcases h with h | h
      · right; exact List.mem_cons.mpr (Or.inl h)
      · rcases ih h with h2 | h2
        · left; exact h2
        · right; exact List.mem_cons_of_mem _ h2

theorem parseLine_keys {m m' : Metrics} {line : String}
    (hm : ∀ p ∈ m, pyStartsWith p.1 "auth_" = true)
    (h : parseMetricsLine m line = Except.ok m') :
    ∀ p ∈ m', pyStartsWith p.1 "auth_" = true := by
  unfold parseMetricsLine at h
  by_cases ha : pyStartsWith line "auth_"
  · rw [if_pos ha] at h
    by_cases hb : line.toList.contains lbrace
    · rw [if_pos hb] at h
      have hname : pyStartsWith (String.mk (line.toList.takeWhile (fun c => c ≠ lbrace))) "auth_" = true :=
        takeWhile_auth ha
      rcases hgl : (wsplit line.toList).getLast? with _ | tok
      · rw [hgl] at h; exact absurd h (by simp)
      · rw [hgl] at h
        simp only at h
        rcases hpf : pyFloat (String.mk tok) with _ | v
        · rw [hpf] at h; exact absurd h (by simp)
        · rw [hpf] at h
          simp only at h
          set name := String.mk (line.toList.takeWhile (fun c => c ≠ lbrace)) with hnm
          set m1 := if (metricsFind m name).isSome then m else metricsSet m name (MValue.lst []) with hm1
          have hm1keys : ∀ p ∈ m1, pyStartsWith p.1 "auth_" = true := by
            rw [hm1]
            split_ifs
            · exact hm
            · intro p hp
              rcases mem_metricsSet hp with h2 | h2
              · rw [h2]; exact hname
              · exact hm p h2
          rcases hf : metricsFind m1 name with _ | mv
          · rw [hf] at h; exact absurd h (by simp)
          · rcases mv with v0 | vs
            · rw [hf] at h; exact absurd h (by simp)
            · rw [hf] at h
              have hmeq : m' = metricsSet m1 name (MValue.lst (vs ++ [v])) := by
                injection h with h'
                exact h'.symm
              rw [hmeq]
              intro p hp
              rcases mem_metricsSet hp with h2 | h2
              · rw [h2]; exact hname
              · exact hm1keys p h2
    · rw [if_neg hb] at h
      by_cases hc : pyStartsWith line "#"
      · rw [if_pos hc] at h
        injection h with h'
        rw [← h']
        exact hm
      · rw [if_neg hc] at h
        rcases hws : wsplit line.toList with _ | ⟨ncs, rest⟩
        · rw [hws] at h
          injection h with h'
          rw [← h']
          exact hm
        · rcases rest with _ | ⟨vcs, rest2⟩
          · rw [hws] at h
            injection h with h'
            rw [← h']
            exact hm
          · rcases rest2 with _ | ⟨w, rest3⟩
            · rw [hws] at h
              simp only at h
              rcases hpf : pyFloat (String.mk vcs) with _ | v
              · rw [hpf] at h; exact absurd h (by simp)
              · rw [hpf] at h
                simp only at h
                injection h with h'
                rw [← h']
                have hn : pyStartsWith (String.mk ncs) "auth_" = true := by
                  obtain ⟨n0, ns0, heq0, hl0⟩ := wsplit_head_auth ha
                  rw [hws] at heq0
                  injection heq0 with h1 h2
                  show leadsList "auth_".toList (String.mk ncs).toList = true
                  rw [show (String.mk ncs).toList = ncs from rfl, h1]
                  exact hl0
                intro p hp
                rcases mem_metricsSet hp with h2 | h2
                · rw [h2]; exact hn
                · exact hm p h2
            · rw [hws] at h
              injection h with h'
              rw [← h']
              exact hm
  · rw [if_neg ha] at h
    injection h with h'
    rw [← h']
    exact hm

theorem parseLines_keys (lines : List String) (m0 m : Metrics)
    (h0 : ∀ p ∈ m0, pyStartsWith p.1 "auth_" = true)
    (h : parseMetricsLines m0 lines = Except.ok m) :
    ∀ p ∈ m, pyStartsWith p.1 "auth_" = true := by
  induction lines generalizing m0 with
  | nil =>
    unfold parseMetricsLines at h
    injection h with h'
    rw [← h']
    exact h0
  | cons line rest ih =>
    unfold parseMetricsLines at h
    rcases hp : parseMetricsLine m0 line with e | m1
    · rw [hp] at h
      exact absurd h (by simp)
    · rw [hp] at h
      simp only at h
      exact ih m1 (parseLine_keys h0 hp) h

/-- C10: every key of a snapshot returned by the metrics parser starts
with the auth underscore prefix, hence any sample line whose name does
not start with that prefix is absent from the snapshot. -/
theorem claim_C10_auth_keys_only (text : String) (m : Metrics)
    (h : getMetricsFromText text = Except.ok m) :
    (∀ p ∈ m, pyStartsWith p.1 "auth_" = true) ∧
    (∀ (name : String) (v : MValue), pyStartsWith name "auth_" = false → (name, v) ∉ m) := by
  have hk := parseLines_keys _ [] m (by simp) h
  refine ⟨hk, ?_⟩
  intro name v hv hmem
  have h2 := hk (name, v) hmem
  rw [hv] at h2
  exact absurd h2 (by simp)

/-- C10 witness at a concrete exposition text. -/
theorem claim_C10_witness :
    getMetricsFromText "auth_login_total 42" =
        Except.ok [("auth_login_total", MValue.scalar 42)] ∧
      ((∀ p ∈ ([("auth_login_total", MValue.scalar 42)] : Metrics),
          pyStartsWith p.1 "auth_" = true) ∧
        (∀ (name : String) (v : MValue), pyStartsWith name "auth_" = false →
          (name, v) ∉ ([("auth_login_total", MValue.scalar 42)] : Metrics))) :=
  ⟨rfl, claim_C10_auth_keys_only "auth_login_total 42"
    [("auth_login_total", MValue.scalar 42)] rfl⟩

/-- C4 counterexample: the parsing loop raises ValueError on an auth
prefixed line whose value token is not numeric, instead of skipping it. -/
theorem claim_C4_counterexample :
    getMetricsFromText "auth_login_total abc" = Except.error "ValueError" := rfl

/-- C4 (amended): a malformed line is skipped only when it does not
start with the auth prefix, or when it is brace free with a token count
other than two; the two examples of the claim behave as stated. -/
theorem claim_C4_amended :
    (∀ (m : Metrics) (line : String), pyStartsWith line "auth_" = false →
        parseMetricsLine m line = Except.ok m) ∧
    (∀ (m : Metrics) (line : String), pyStartsWith line "auth_" = true →
        line.toList.contains lbrace = false →
        (wsplit line.toList).length ≠ 2 →
        parseMetricsLine m line = Except.ok m) ∧
    getMetricsFromText "foo bar baz\nauth_login_total 42" =
      Except.ok [("auth_login_total", MValue.scalar 42)] := by
  refine ⟨?_, ?_, rfl⟩
  · intro m line h
    unfold parseMetricsLine
    rw [h]
    simp
  · intro m line h1 h2 h3
    unfold parseMetricsLine
    rw [h1, h2]
    simp only [if_true, Bool.false_eq_true, if_false]
    by_cases hc : pyStartsWith line "#"
    · rw [hc]
      simp
    · rw [Bool.not_eq_true] at hc
      rw [hc]
      simp only [Bool.false_eq_true, if_false]
      rcases hws : wsplit line.toList with _ | ⟨a, _ | ⟨b, _ | ⟨c, tail⟩⟩⟩
      · rfl
      · rfl
      · rw [hws] at h3
        simp at h3
      · rfl

/-- C4 witness for the amended claim at a concrete malformed line. -/
theorem claim_C4_witness :
    pyStartsWith "foo bar baz" "auth_" = false ∧
      parseMetricsLine [] "foo bar baz" = Except.ok [] :=
  ⟨rfl, claim_C4_amended.1 [] "foo bar baz" rfl⟩

/-- C5 counterexample: both refresh statuses match the claim (200 then
401), the log file exists but records nothing, and the scenario verdict
is failure, so the verdict does depend on the log inspection. -/
theorem claim_C5_counterexample :
    (testReplayDetection ⟨200, some "tok", 200, 401, some "server started", 0⟩).map
      (fun l => l.map (fun r => r.success)) = Except.ok [false] := rfl

/-- C5 (amended): once registration, token and log file are available,
the scenario emits one TestResult whose verdict is second status 401 and
the log holding the replay marker and a client address marker; the first
refresh status and the user agent markers do not enter the verdict, and
a missing log file raises instead. -/
theorem claim_C5_amended (env : ReplayEnv) (tok logs : String)
    (hreg : env.regStatus = 200) (htok : env.refreshToken = some tok)
    (hne : tok ≠ "") (hlog : env.logFile = some logs) :
    ∃ r : TestResult, testReplayDetection env = Except.ok [r] ∧
      (r.success = true ↔
        env.replayStatus = 401 ∧ pyIn "refresh_replay_detected" logs = true ∧
          (pyIn "198.51.100.99" logs = true ∨ pyIn "client_ip" logs = true)) := by
  refine ⟨{ name := "Replay Detection with Client IP"
            success := (env.replayStatus == 401) && pyIn "refresh_replay_detected" logs
              && (pyIn "198.51.100.99" logs || pyIn "client_ip" logs)
            duration := env.elapsed
            details := "Replay " ++ (if env.replayStatus == 401 then "blocked" else "NOT blocked")
              ++ ", IP logged: " ++ pyBoolStr (pyIn "198.51.100.99" logs || pyIn "client_ip" logs)
              ++ ", UA logged: " ++ pyBoolStr (pyIn "EvilClient" logs || pyIn "user_agent" logs) },
    ?_, ?_⟩
  · simp [testReplayDetection, hreg, htok, hlog, hne]
  · simp [Bool.and_eq_true, Bool.or_eq_true, beq_iff_eq, and_assoc]

/-- C5 witness for the amended claim at a concrete environment. -/
theorem claim_C5_witness :
    ((⟨200, some "t", 200, 401, some "log", 0⟩ : ReplayEnv).regStatus = 200 ∧
      (⟨200, some "t", 200, 401, some "log", 0⟩ : ReplayEnv).refreshToken = some "t" ∧
      ("t" : String) ≠ "" ∧
      (⟨200, some "t", 200, 401, some "log", 0⟩ : ReplayEnv).logFile = some "log") ∧
    (∃ r : TestResult,
      testReplayDetection ⟨200, some "t", 200, 401, some "log", 0⟩ = Except.ok [r] ∧
      (r.success = true ↔
        (⟨200, some "t", 200, 401, some "log", 0⟩ : ReplayEnv).replayStatus = 401 ∧
          pyIn "refresh_replay_detected" "log" = true ∧
          (pyIn "198.51.100.99" "log" = true ∨ pyIn "client_ip" "log" = true))) :=
  ⟨⟨rfl, rfl, by decide, rfl⟩,
   claim_C5_amended ⟨200, some "t", 200, 401, some "log", 0⟩ "t" "log" rfl rfl (by decide) rfl⟩

/-- C6 counterexample: a batch where every response is a dict whose keys
field is the empty list still counts as a pass. -/
theorem claim_C6_counterexample :
    jwksFanout (fun _ => Except.ok (JsonV.obj [("keys", JsonV.arr [])])) 3 =
        [Except.ok (JsonV.obj [("keys", JsonV.arr [])]),
         Except.ok (JsonV.obj [("keys", JsonV.arr [])]),
         Except.ok (JsonV.obj [("keys", JsonV.arr [])])] ∧
      (jwksScenario (fun _ => Except.ok (JsonV.obj [("keys", JsonV.arr [])])) 3 0).success
        = true :=
  ⟨rfl, rfl⟩

/-- C6 (amended): the scenario passes exactly when every response is a
dict holding a keys field; emptiness of the key list is not checked. -/
theorem claim_C6_amended (fetch : ℕ → Except String JsonV) (c : ℕ) (e : ℚ) :
    (jwksScenario fetch c e).success = true ↔
      ∀ r ∈ jwksFanout fetch c, jwksOk r = true := by
  unfold jwksScenario
  simp only [beq_iff_eq]
  have hlen : (jwksFanout fetch c).length = c := by simp [jwksFanout, gatherE]
  constructor
  · intro h
    have h2 : (List.filter jwksOk (jwksFanout fetch c)).length =
        (jwksFanout fetch c).length := by rw [hlen]; exact h
    have heq : (jwksFanout fetch c).filter jwksOk = jwksFanout fetch c :=
      (List.filter_sublist _).eq_of_length h2
    exact List.filter_eq_self.mp heq
  · intro h
    rw [List.filter_eq_self.mpr h, hlen]

/-- C7 counterexample: a failed registration makes the replay scenario
return with no TestResult appended at all. -/
theorem claim_C7_counterexample :
    testReplayDetection ⟨500, some "tok", 200, 401, some "x", 0⟩ = Except.ok [] := rfl

/-- C7 (amended): the replay scenario appends no TestResult on failed
registration or missing or empty refresh token, raises past the scenario
boundary when the log file is missing, and appends exactly one
TestResult otherwise; the metrics scenario propagates a fetch error and
appends exactly one TestResult on success. -/
theorem claim_C7_amended :
    (∀ env : ReplayEnv, env.regStatus ≠ 200 → testReplayDetection env = Except.ok []) ∧
    (∀ env : ReplayEnv, env.regStatus = 200 → env.refreshToken = none →
        testReplayDetection env = Except.ok []) ∧
    (∀ env : ReplayEnv, env.regStatus = 200 → env.refreshToken = some "" →
        testReplayDetection env = Except.ok []) ∧
    (∀ (env : ReplayEnv) (tok : String), env.regStatus = 200 →
        env.refreshToken = some tok → tok ≠ "" → env.logFile = none →
        testReplayDetection env = Except.error "FileNotFoundError") ∧
    (∀ (env : ReplayEnv) (tok logs : String), env.regStatus = 200 →
        env.refreshToken = some tok → tok ≠ "" → env.logFile = some logs →
        ∃ r, testReplayDetection env = Except.ok [r]) ∧
    (∀ (fetch : Except String Metrics) (e : String), fetch = Except.error e →
        validateMetrics fetch = Except.error e) ∧
    (∀ ms : Metrics, ∃ r, validateMetrics (Except.ok ms) = Except.ok [r]) := by
  refine ⟨?_, ?_, ?_, ?_, ?_, ?_, ?_⟩
  · intro env h
    simp [testReplayDetection, h]
  · intro env h1 h2
    simp [testReplayDetection, h1, h2]
  · intro env h1 h2
    simp [testReplayDetection, h1, h2]
  · intro env tok h1 h2 h3 h4
    simp [testReplayDetection, h1, h2, h3, h4]
  · intro env tok logs h1 h2 h3 h4
    refine ⟨{ name := "Replay Detection with Client IP"
              success := (env.replayStatus == 401) && pyIn "refresh_replay_detected" logs
                && (pyIn "198.51.100.99" logs || pyIn "client_ip" logs)
              duration := env.elapsed
              details := "Replay "
                ++ (if env.replayStatus == 401 then "blocked" else "NOT blocked")
                ++ ", IP logged: " ++ pyBoolStr (pyIn "198.51.100.99" logs || pyIn "client_ip" logs)
                ++ ", UA logged: "
                ++ pyBoolStr (pyIn "EvilClient" logs || pyIn "user_agent" logs) }, ?_⟩
    simp [testReplayDetection, h1, h2, h3, h4]
  · intro fetch e h
    simp [validateMetrics, h]
  · intro ms
    exact ⟨_, rfl⟩

/-- C7 witness for the amended claim at concrete environments. -/
theorem claim_C7_witness :
    ((⟨500, some "tok", 200, 401, some "x", 0⟩ : ReplayEnv).regStatus ≠ 200 ∧
      testReplayDetection ⟨500, some "tok", 200, 401, some "x", 0⟩ = Except.ok []) ∧
    ((⟨200, some "tok", 200, 401, none, 0⟩ : ReplayEnv).logFile = none ∧
      testReplayDetection ⟨200, some "tok", 200, 401, none, 0⟩ =
        Except.error "FileNotFoundError") :=
  ⟨⟨by decide, claim_C7_amended.1 ⟨500, some "tok", 200, 401, some "x", 0⟩ (by decide)⟩,
   ⟨rfl, claim_C7_amended.2.2.2.1 ⟨200, some "tok", 200, 401, none, 0⟩ "tok" rfl rfl
      (by decide) rfl⟩⟩

/-- C1: for the runs the harness can produce (at least one scenario
result), the exit status is 0 exactly when every recorded TestResult has
success true; any mix of passed and failed scenarios exits 1. -/
theorem claim_C1_exit_zero_iff_all_pass (results : List TestResult)
    (hne : results ≠ []) :
    mainExitCode results = Except.ok 0 ↔ ∀ r ∈ results, r.success = true := by
  have h0 : results.length ≠ 0 := fun h => hne (List.length_eq_zero.mp h)
  unfold mainExitCode runAllTestsVerdict testsPassedCount
  rw [if_neg h0]
  constructor
  · intro h
    simp only [Except.map] at h
    injection h with h'
    by_cases hb : results.countP (fun r => r.success) = results.length
    · exact List.countP_eq_length.mp hb
    · have hbf : (results.countP (fun r => r.success) == results.length) = false := by
        simpa using hb
      rw [hbf] at h'
      simp at h'
  · intro h
    have hc : results.countP (fun r => r.success) = results.length :=
      List.countP_eq_length.mpr h
    simp [Except.map, hc]

/-- C1 witness at a concrete one element result list. -/
theorem claim_C1_witness :
    ([({ name := "a", success := true, duration := 0, details := "" } : TestResult)] ≠
        ([] : List TestResult)) ∧
      (mainExitCode [{ name := "a", success := true, duration := 0, details := "" }] =
          Except.ok 0 ↔
        ∀ r ∈ [({ name := "a", success := true, duration := 0, details := "" } : TestResult)],
          r.success = true) :=
  ⟨List.cons_ne_nil _ _,
   claim_C1_exit_zero_iff_all_pass
     [{ name := "a", success := true, duration := 0, details := "" }] (List.cons_ne_nil _ _)⟩

/-- C2: a gather batch returns exactly one outcome per submitted task,
for a generic batch, the JWKS fan-out and the registration fan-out. -/
theorem claim_C2_batch_length {α β : Type} (f : α → β) (specs : List α)
    (fetch : ℕ → Except String JsonV) (run : ℕ → ℕ × JsonV) (c n : ℕ) :
    (gatherE f specs).length = specs.length ∧
    (jwksFanout fetch c).length = c ∧
    (registrationFanout run n).length = n := by
  refine ⟨?_, ?_, ?_⟩ <;> simp [gatherE, jwksFanout, registrationFanout]

/-- C9: the spoofed X-Forwarded-For header is a function of the email
identity alone; two user records agreeing on email get the same header,
whatever the other fields are. -/
theorem claim_C9_xff_deterministic (pyHash : String → ℤ) (u v : UserData)
    (h : u.email = v.email) : xffHeader pyHash u = xffHeader pyHash v := by
  unfold xffHeader
  rw [h]

/-- C9 witness at two concrete user records sharing an email. -/
theorem claim_C9_witness :
    (UserData.email ⟨"t1", "u1", "a@b.c", "pw1"⟩ =
        UserData.email ⟨"t2", "u2", "a@b.c", "pw2"⟩) ∧
      xffHeader (fun s => (s.length : ℤ)) ⟨"t1", "u1", "a@b.c", "pw1"⟩ =
        xffHeader (fun s => (s.length : ℤ)) ⟨"t2", "u2", "a@b.c", "pw2"⟩ :=
  ⟨rfl, claim_C9_xff_deterministic (fun s => (s.length : ℤ)) ⟨"t1", "u1", "a@b.c", "pw1"⟩
    ⟨"t2", "u2", "a@b.c", "pw2"⟩ rfl⟩

/-- C8 counterexample: the fan-out of the hash concurrency scenario of
pressure-test.py acquires no client permit, and with batch size 2 it
reaches a state with 2 requests in flight, exceeding the ceiling 1. -/
theorem claim_C8_counterexample :
    FreeReachable 2 ⟨0, 2, 0⟩ ∧ 1 < DispatchState.inflight ⟨0, 2, 0⟩ := by
  constructor
  · have s1 : FreeStep ⟨2, 0, 0⟩ ⟨1, 1, 0⟩ := FreeStep.start ⟨2, 0, 0⟩ (by decide)
    have s2 : FreeStep ⟨1, 1, 0⟩ ⟨0, 2, 0⟩ := FreeStep.start ⟨1, 1, 0⟩ (by decide)
    exact FreeReachable.step (FreeReachable.step FreeReachable.init s1) s2
  · decide

/-- C8 (amended): the semaphore guarded dispatcher of the extreme test
never exceeds its permit count in flight, while the plain gather fan-out
of pressure-test.py can reach a state with all n requests in flight. -/
theorem claim_C8_amended :
    (∀ (limit n : ℕ) (s : DispatchState), SemReachable limit n s → s.inflight ≤ limit) ∧
    (∀ n : ℕ, FreeReachable n ⟨0, n, 0⟩) := by
  constructor
  · intro limit n s h
    induction h with
    | init => simp
    | step hs hstep ih =>
      cases hstep with
      | acquire hq hc => simpa using hc
      | release hf =>
        simp only [DispatchState.inflight]
        omega
  · intro n
    have key : ∀ k, k ≤ n → FreeReachable n ⟨n - k, k, 0⟩ := by
      intro k
      induction k with
      | zero => intro _; simpa using FreeReachable.init
      | succ k ih =>
        intro hk
        have h1 := ih (Nat.le_of_succ_le hk)
        have hstep : FreeStep ⟨n - k, k, 0⟩ ⟨n - k - 1, k + 1, 0⟩ :=
          FreeStep.start ⟨n - k, k, 0⟩ (by simp only [DispatchState.queued]; omega)
        have heq : n - (k + 1) = n - k - 1 := by omega
        rw [show (⟨n - (k + 1), k + 1, 0⟩ : DispatchState) = ⟨n - k - 1, k + 1, 0⟩ from by rw [heq]]
        exact FreeReachable.step h1 hstep
    have h2 := key n le_rfl
    simpa using h2

/-- C8 witness: a concrete reachable state of the guarded dispatcher
obeys the ceiling, and the unguarded fan-out of two requests reaches the
all-in-flight state. -/
theorem claim_C8_witness :
    (SemReachable 2 3 ⟨2, 1, 0⟩ ∧ DispatchState.inflight ⟨2, 1, 0⟩ ≤ 2) ∧
      FreeReachable 2 ⟨0, 2, 0⟩ :=
  ⟨⟨SemReachable.step SemReachable.init (SemStep.acquire ⟨3, 0, 0⟩ (by decide) (by decide)),
    claim_C8_amended.1 2 3 ⟨2, 1, 0⟩
      (SemReachable.step SemReachable.init (SemStep.acquire ⟨3, 0, 0⟩ (by decide) (by decide)))⟩,
   claim_C8_amended.2 2⟩

/-- C3: for a non-empty sample list and 0 ≤ p ≤ 100, pct selects the
element of the ascending sort at index round(p / 100 * (count - 1)),
which stays in range; p = 0 gives the minimum and p = 100 the maximum. -/
theorem claim_C3_pct_nearest_rank (l : List ℚ) (p : ℚ) (hne : l ≠ [])
    (h0 : 0 ≤ p) (h1 : p ≤ 100) :
    (∃ k : ℕ, (k : ℤ) = pyRound (p / 100 * ((l.length : ℚ) - 1)) ∧ k < l.length ∧
        pct l p = (l.insertionSort (· ≤ ·)).get? k) ∧
    (∃ x, pct l 0 = some x ∧ x ∈ l ∧ ∀ y ∈ l, x ≤ y) ∧
    (∃ x, pct l 100 = some x ∧ x ∈ l ∧ ∀ y ∈ l, y ≤ x) := by
  have hn : 1 ≤ l.length := List.length_pos.mpr hne
  have hsperm := List.perm_insertionSort (· ≤ · : ℚ → ℚ → Prop) l
  have hsorted := List.sorted_insertionSort (· ≤ · : ℚ → ℚ → Prop) l
  have hsl : (l.insertionSort (· ≤ ·)).length = l.length := hsperm.length_eq
  have hnq : (1:ℚ) ≤ (l.length : ℚ) := by exact_mod_cast hn
  refine ⟨?_, ?_, ?_⟩
  · have hx0 : 0 ≤ p / 100 * ((l.length : ℚ) - 1) :=
      mul_nonneg (div_nonneg h0 (by norm_num)) (by linarith)
    have hxle : p / 100 * ((l.length : ℚ) - 1) ≤ (((l.length : ℤ) - 1 : ℤ) : ℚ) := by
      push_cast
      have hp1 : p / 100 ≤ 1 := by linarith [div_le_one_of_le₀ h1 (by norm_num : (0:ℚ) ≤ 100)]
      nlinarith
    have hk0 := pyRound_nonneg hx0
    have hkle := pyRound_le hxle
    refine ⟨(pyRound (p / 100 * ((l.length : ℚ) - 1))).toNat, Int.toNat_of_nonneg hk0, ?_, ?_⟩
    · omega
    · unfold pct pyIndex
      simp [hk0]
  · have hz : pyRound (0 / 100 * ((l.length : ℚ) - 1)) = 0 := by
      have he : (0:ℚ) / 100 * ((l.length : ℚ) - 1) = ((0:ℤ):ℚ) := by push_cast; ring
      rw [he, pyRound_intCast]
    cases hs : l.insertionSort (· ≤ · : ℚ → ℚ → Prop) with
    | nil =>
      rw [hs] at hsl
      simp at hsl
      omega
    | cons a t =>
      refine ⟨a, ?_, ?_, ?_⟩
      · unfold pct pyIndex
        rw [hz]
        simp [hs]
      · exact hsperm.subset (by rw [hs]; exact List.mem_cons_self a t)
      · intro y hy
        have hys : y ∈ l.insertionSort (· ≤ · : ℚ → ℚ → Prop) := hsperm.symm.subset hy
        rw [hs] at hys hsorted
        rcases List.mem_cons.mp hys with h | h
        · exact le_of_eq h.symm
        · exact (List.sorted_cons.mp hsorted).1 y h
  · have hz : pyRound (100 / 100 * ((l.length : ℚ) - 1)) = (l.length : ℤ) - 1 := by
      have he : (100:ℚ) / 100 * ((l.length : ℚ) - 1) = (((l.length : ℤ) - 1 : ℤ) : ℚ) := by
        push_cast; ring
      rw [he, pyRound_intCast]
    have hlt : l.length - 1 < (l.insertionSort (· ≤ · : ℚ → ℚ → Prop)).length := by omega
    refine ⟨(l.insertionSort (· ≤ ·)).get ⟨l.length - 1, hlt⟩, ?_, ?_, ?_⟩
    · unfold pct pyIndex
      rw [hz]
      have h0k : (0:ℤ) ≤ (l.length : ℤ) - 1 := by omega
      have htn : ((l.length : ℤ) - 1).toNat = l.length - 1 := by omega
      simp only [h0k, if_pos, htn]
      exact List.get?_eq_get hlt
    · exact hsperm.subset (List.get_mem _ _ _)
    · intro y hy
      have hys : y ∈ l.insertionSort (· ≤ · : ℚ → ℚ → Prop) := hsperm.symm.subset hy
      obtain ⟨i, hi⟩ := List.mem_iff_get.mp hys
      rw [← hi]
      refine hsorted.rel_get_of_le ?_
      rw [Fin.le_def]
      have h3 := i.isLt
      simp only [hsl] at h3 ⊢
      omega

/-- C3 witness at a concrete sample list and percentile. -/
theorem claim_C3_witness :
    (([3, 1, 2] : List ℚ) ≠ [] ∧ (0:ℚ) ≤ 50 ∧ (50:ℚ) ≤ 100) ∧
    ((∃ k : ℕ, (k : ℤ) = pyRound ((50:ℚ) / 100 * ((([3, 1, 2] : List ℚ).length : ℚ) - 1)) ∧
        k < ([3, 1, 2] : List ℚ).length ∧
        pct [3, 1, 2] 50 = (([3, 1, 2] : List ℚ).insertionSort (· ≤ ·)).get? k) ∧
      (∃ x, pct [3, 1, 2] 0 = some x ∧ x ∈ ([3, 1, 2] : List ℚ) ∧
        ∀ y ∈ ([3, 1, 2] : List ℚ), x ≤ y) ∧
      (∃ x, pct [3, 1, 2] 100 = some x ∧ x ∈ ([3, 1, 2] : List ℚ) ∧
        ∀ y ∈ ([3, 1, 2] : List ℚ), y ≤ x)) :=
  ⟨⟨List.cons_ne_nil _ _, by norm_num, by norm_num⟩,
   claim_C3_pct_nearest_rank [3, 1, 2] 50 (List.cons_ne_nil _ _) (by norm_num) (by norm_num)⟩
